import Mathlib

/-!
Shallow embedding of `gym_plannable/multi_agent/multi_agent_server.py`
(the coordinator server, the action collector, the client/server interface
and the client facade), together with theorems settling the specification
claims about them.

Observations and actions are abstracted as natural numbers, rewards as
integers, info dictionaries as a record with the `interrupted` key made
explicit and the remaining contents abstracted as a payload.
-/

namespace GymPlannable

/-- An info dictionary: the `interrupted` key (absent = `false`) is modelled
explicitly, the rest of the dictionary is abstracted into `payload`. -/
structure Info where
  interrupted : Bool := false
  payload : Nat := 0
deriving DecidableEq, Repr

abbrev Obs := Nat
abbrev Reward := Int

/-- The exceptions raised/reported by the server code. -/
inductive Err where
  /-- ValueError: an action has already been collected for this agent. -/
  | alreadyCollected (agentid : Nat)
  /-- ValueError: it is currently not this agent's turn. -/
  | notTurn (agentid : Nat)
  /-- TypeError: unexpected message type in `ActionCollector.collect`. -/
  | unexpectedType
  /-- RuntimeError: the agent did not call reset at the beginning of a new episode. -/
  | noResetAtEpisodeStart (agentid : Nat)
  /-- An exception raised by `multi_agent_env.step`, abstracted as a number. -/
  | envStepFailed (e : Nat)
deriving DecidableEq, Repr

/-- `ObservationMessage(observation, reward=0, done=False, info=None)`;
`info or \x7b\x7d` makes the default info the empty dictionary. -/
structure ObservationMessage where
  observation : Obs
  reward : Reward := 0
  done : Bool := false
  info : Info := {}
deriving DecidableEq, Repr

/-- A Python value appearing in the tuple returned by
`ObservationMessage.totuple` (Python tuples are heterogeneous). -/
inductive PyVal where
  | obsV (o : Obs)
  | rewV (r : Reward)
  | boolV (b : Bool)
  | infoV (i : Info)
deriving DecidableEq, Repr

/-- `ObservationMessage.totuple`: returns
`(self.observation, self.reward, self.done, self.info)` -- a 4-tuple,
modelled as a heterogeneous list. -/
def ObservationMessage.totuple (m : ObservationMessage) : List PyVal :=
  [.obsV m.observation, .rewV m.reward, .boolV m.done, .infoV m.info]

/-- A message sitting in an agent's outgoing queue. -/
inductive OutMsg where
  | observation (m : ObservationMessage)
  | error (e : Err)
  | stopServer
deriving DecidableEq, Repr

/-- A message passed to `ActionCollector.collect`: an `ActionMessage`,
a `ResetMessage`, or any other object carrying an `agentid` attribute
(which hits the TypeError branch of `collect`). -/
inductive ColMsg where
  | actionMsg (action : Nat) (agentid : Nat)
  | resetMsg (agentid : Nat)
  | otherMsg (agentid : Nat)
deriving DecidableEq, Repr

def ColMsg.agentid : ColMsg → Nat
  | .actionMsg _ i => i
  | .resetMsg i => i
  | .otherMsg i => i

/-- A value stored in the collector's `_actions` dictionary: the raw action
of an `ActionMessage`, or a `ResetAction` instance recorded for a
`ResetMessage`. -/
inductive CollectedVal where
  | act (a : Nat)
  | resetAction
deriving DecidableEq, Repr

/-- `isinstance(v, ResetMessage)` evaluated on an entry of the collector's
dictionary: the stored values are raw actions or `ResetAction` instances
(and `None` for an absent key), none of which is a `ResetMessage`, so this
is `false` for every stored value. -/
def storedIsResetMessage : Option CollectedVal → Bool := fun _ => false

/-- `collections.OrderedDict.fromkeys(agentids)`: one entry per distinct key,
first-occurrence order, every value `None`.  (Keeping the head and removing
its key from the recursively built dictionary of the tail produces exactly
the first-occurrence order.) -/
def odictFromKeys : List Nat → List (Nat × Option CollectedVal)
  | [] => []
  | a :: l => (a, none) :: (odictFromKeys l).filter (fun p => p.1 ≠ a)

/-- Dictionary lookup: `some v` when the key is present with value `v`,
`none` when absent (a `KeyError` in Python). -/
def odictFind : List (Nat × Option CollectedVal) → Nat → Option (Option CollectedVal)
  | [], _ => none
  | p :: l, agentid => if p.1 = agentid then some p.2 else odictFind l agentid

/-- Dictionary assignment `d[agentid] = v` for a key already present:
updates the value in place, preserving the key order. -/
def odictSet (acts : List (Nat × Option CollectedVal)) (agentid : Nat)
    (v : Option CollectedVal) : List (Nat × Option CollectedVal) :=
  acts.map (fun p => if p.1 = agentid then (p.1, v) else p)

/-- The state of an `ActionCollector`: the ordered `_actions` dictionary,
the `_collected` counter and the `interrupted` flag. -/
structure ActionCollector where
  actions : List (Nat × Option CollectedVal)
  collected : Nat
  interrupted : Bool
deriving DecidableEq, Repr

/-- `ActionCollector.reset(agentids)`: removes any collected actions and
arms the collector for the given agents. -/
def ActionCollector.reset (agentids : List Nat) : ActionCollector :=
  { actions := odictFromKeys agentids, collected := 0, interrupted := false }

/-- `ActionCollector.all_collected`. -/
def ActionCollector.all_collected (c : ActionCollector) : Bool :=
  c.collected == c.actions.length

/-- `ActionCollector.agent_turn`: the keys of the `_actions` dictionary. -/
def ActionCollector.agent_turn (c : ActionCollector) : List Nat :=
  c.actions.map Prod.fst

/-- `ActionCollector.collect(msg)` run statement by statement: returns the
post-state together with the exception raised, if any (the post-state of a
raising run is whatever the mutations before the raise produced; every
raise in the source happens before the first mutation). -/
def ActionCollector.collectRun (c : ActionCollector) (msg : ColMsg) :
    ActionCollector × Option Err :=
  let agentid := msg.agentid
  match odictFind c.actions agentid with
  | none => (c, some (.notTurn agentid))
  | some (some _) => (c, some (.alreadyCollected agentid))
  | some none =>
    match msg with
    | .actionMsg a _ =>
      let c := { c with actions := odictSet c.actions agentid (some (.act a)) }
      let c := { c with collected := c.collected + 1 }
      (c, none)
    | .resetMsg _ =>
      let c := { c with actions := odictSet c.actions agentid (some .resetAction) }
      let c := { c with interrupted := true }
      let c := { c with collected := c.collected + 1 }
      (c, none)
    | .otherMsg _ => (c, some .unexpectedType)

/-- `ActionCollector.collect(msg)` as a fallible operation. -/
def ActionCollector.collect (c : ActionCollector) (msg : ColMsg) :
    Except Err ActionCollector :=
  match c.collectRun msg with
  | (c', none) => .ok c'
  | (_, some e) => .error e

/-- The responses of the external simulation to one `step(actions)` call:
either an exception (abstracted as a number) or the
`(obs, rew, done, info)` tuple of per-agent sequences, together with the
value of the `agent_turn` property read after a successful step. -/
structure EnvStepOutcome where
  result : Except Nat (List Obs × List Reward × List Bool × List Info)
  agentTurnAfter : List Nat
deriving Repr

/-- The responses of the external simulation to one `reset()` call: the
returned per-agent observations, and the `agent_turn` property read after
the reset. -/
structure EnvResetOutcome where
  obs : List Obs
  agentTurnAfter : List Nat
deriving DecidableEq, Repr

/-- The control-loop-private state of a `MultiAgentServer`, together with
the per-agent outgoing queues it writes to.  `envResetCount` and
`envStepCount` count the calls made to the simulation's `reset` and `step`
(they are observables of the external collaborator, not program state). -/
structure ServerState where
  numAgents : Nat
  obsMsgBuffer : List (Option ObservationMessage)
  resetExpected : List Bool
  resetRequested : List Bool
  obs : Option (List Obs)
  info : Option (List Info)
  collector : ActionCollector
  outgoing : List (List OutMsg)
  envResetCount : Nat
  envStepCount : Nat
deriving DecidableEq, Repr

/-- The server state right after `MultiAgentServer.__init__`: the buffer
holds `None` for every agent, `_reset_expected` is all ones,
`_reset_requested` all zeros, no observation or info yet, an empty
collector (`ActionCollector()`), and empty outgoing queues. -/
def ServerState.init (numAgents : Nat) : ServerState where
  numAgents := numAgents
  obsMsgBuffer := List.replicate numAgents none
  resetExpected := List.replicate numAgents true
  resetRequested := List.replicate numAgents false
  obs := none
  info := none
  collector := ActionCollector.reset []
  outgoing := List.replicate numAgents []
  envResetCount := 0
  envStepCount := 0

/-- `self.csi.outgoing_messages[agentid].put_nowait(m)`. -/
def pushOut (s : ServerState) (agentid : Nat) (m : OutMsg) : ServerState :=
  { s with outgoing := s.outgoing.set agentid (s.outgoing.getD agentid [] ++ [m]) }

/-- The agent's outgoing queue. -/
def ServerState.queue (s : ServerState) (agentid : Nat) : List OutMsg :=
  s.outgoing.getD agentid []

/-- `MultiAgentServer._perform_reset`: resets the environment, clears the
info, re-arms the collector for the new turn and marks every agent as
expected to reset.  The final statement
`np.asarray(self.obs_msg_buffer)[:] = None` builds a NEW object array from
the buffer list and fills that copy, so the buffer list itself is left
unchanged. -/
def performReset (s : ServerState) (renv : EnvResetOutcome) : ServerState :=
  { s with obs := some renv.obs,
           info := none,
           collector := ActionCollector.reset renv.agentTurnAfter,
           resetExpected := List.replicate s.resetExpected.length true,
           envResetCount := s.envResetCount + 1 }

/-- `action_dict.get(agentid, None)`. -/
def actionDictGet (acts : List (Nat × Option CollectedVal)) (agentid : Nat) :
    Option CollectedVal :=
  match odictFind acts agentid with
  | some v => v
  | none => none

/-- The info dictionary attached to an interruption delivery:
`\x7b'interrupted': True\x7d` when `self._info is None`, else
`dict(self._info[agentid], interrupted=True)`. -/
def interruptInfo (info? : Option (List Info)) (agentid : Nat) : Info :=
  match info? with
  | none => { interrupted := true }
  | some infos => { infos.getD agentid {} with interrupted := true }

/-- The interruption delivery built in the first loop of the interrupted
branch: a repeat of the last observation with reward 0, `done=True` and
`info.interrupted=True`. -/
def interruptDeliveryMsg (s : ServerState) (agentid : Nat) : ObservationMessage :=
  { observation := (s.obs.getD []).getD agentid 0,
    reward := 0, done := true, info := interruptInfo s.info agentid }

/-- One iteration of the first loop of the interrupted branch of
`_perform_transition`: skip the agents that already know the episode is
ending, deliver a repeat of the last observation with reward 0,
`done=True` and `interrupted=True` to everyone else. -/
def interruptedLoopBody (actionDict : List (Nat × Option CollectedVal))
    (s : ServerState) (agentid : Nat) : ServerState :=
  if storedIsResetMessage (actionDictGet actionDict agentid)
      || s.resetExpected.getD agentid false
      || s.resetRequested.getD agentid false then
    s
  else
    pushOut s agentid (.observation (interruptDeliveryMsg s agentid))

/-- One iteration of the second loop of the interrupted branch of
`_perform_transition`: for an agent due to act in the fresh episode, send
the new observation at once if the agent already requested a reset,
otherwise buffer it. -/
def newTurnLoopBody (s : ServerState) (agentid : Nat) : ServerState :=
  let obsMsg : ObservationMessage := { observation := (s.obs.getD []).getD agentid 0 }
  if s.resetRequested.getD agentid false then
    let s := pushOut s agentid (.observation obsMsg)
    { s with resetRequested := s.resetRequested.set agentid false }
  else
    { s with obsMsgBuffer := s.obsMsgBuffer.set agentid (some obsMsg) }

/-- One iteration of the final loop of the normal branch of
`_perform_transition` (over the new turn minus the newly done agents). -/
def normalTurnLoopBody (obs : List Obs) (rew : List Reward) (done : List Bool)
    (info : List Info) (s : ServerState) (agentid : Nat) : ServerState :=
  let obsMsg : ObservationMessage :=
    { observation := obs.getD agentid 0, reward := rew.getD agentid 0,
      done := done.getD agentid false, info := info.getD agentid {} }
  if s.resetRequested.getD agentid false then
    let s := { s with resetRequested := s.resetRequested.set agentid false }
    pushOut s agentid (.observation obsMsg)
  else if s.resetExpected.getD agentid false then
    { s with obsMsgBuffer := s.obsMsgBuffer.set agentid (some obsMsg) }
  else
    pushOut s agentid (.observation obsMsg)

/-- `self._reset_expected[np.where(self._reset_requested)] = False`. -/
def clearWhere (xs mask : List Bool) : List Bool :=
  xs.mapIdx (fun i b => if mask.getD i false then false else b)

/-- `self._reset_expected[np.where(done)] = True`. -/
def setWhere (xs mask : List Bool) : List Bool :=
  xs.mapIdx (fun i b => if mask.getD i false then true else b)

/-- `MultiAgentServer._perform_transition`.  The caller guarantees
`all_collected`, so `get_actions()` returns `self._actions` without
raising.  The iteration order of
`set(agent_turn).difference(newly_done)` is unspecified in Python; since
each iteration touches only fields of its own (distinct) agent, the
resulting state does not depend on it and the embedding iterates in
`agent_turn` order. -/
def performTransition (s : ServerState) (senv : EnvStepOutcome)
    (renv : EnvResetOutcome) : ServerState :=
  let actionDict := s.collector.actions
  if s.collector.interrupted then
    let s := (List.range s.numAgents).foldl (interruptedLoopBody actionDict) s
    let s := performReset s renv
    let s := { s with resetExpected := clearWhere s.resetExpected s.resetRequested }
    s.collector.agent_turn.foldl newTurnLoopBody s
  else
    let s := { s with envStepCount := s.envStepCount + 1 }
    match senv.result with
    | .error e =>
      let turn := s.collector.agent_turn
      let s := turn.foldl (fun s i => pushOut s i (.error (.envStepFailed e))) s
      { s with collector := ActionCollector.reset turn }
    | .ok (obs, rew, done, info) =>
      let s := { s with collector := ActionCollector.reset senv.agentTurnAfter }
      let s := { s with obs := some obs, info := some info }
      let newlyDone := (List.range s.numAgents).filter
        (fun i => !(s.resetExpected.getD i false) && done.getD i false)
      let s := newlyDone.foldl (fun s i =>
        pushOut s i (.observation
          { observation := obs.getD i 0, reward := rew.getD i 0,
            done := done.getD i false, info := info.getD i {} })) s
      let s := { s with resetExpected := setWhere s.resetExpected done }
      (s.collector.agent_turn.filter (fun i => !newlyDone.contains i)).foldl
        (normalTurnLoopBody obs rew done info) s

/-- `MultiAgentServer._handle_action`.  The `except ValueError` clause in
the source catches the collection failure and reports it to the offending
agent; `collect` can only raise a TypeError for messages that are neither
actions nor resets, which the server never feeds to it. -/
def handleAction (s : ServerState) (msg : ColMsg) (senv : EnvStepOutcome)
    (renv : EnvResetOutcome) : ServerState :=
  let agentid := msg.agentid
  if s.resetExpected.getD agentid false then
    pushOut s agentid (.error (.noResetAtEpisodeStart agentid))
  else
    match s.collector.collect msg with
    | .error e => pushOut s agentid (.error e)
    | .ok c =>
      let s := { s with collector := c }
      if c.all_collected then performTransition s senv renv else s

/-- `MultiAgentServer._has_buffer_msg`. -/
def hasBufferMsg (s : ServerState) (agentid : Nat) : Bool :=
  (s.obsMsgBuffer.getD agentid none).isSome

/-- `MultiAgentServer._send_buffer_msg`: puts the buffered message on the
agent's outgoing queue and clears the buffer slot (only called when a
buffered message is present). -/
def sendBufferMsg (s : ServerState) (agentid : Nat) : ServerState :=
  let s :=
    match s.obsMsgBuffer.getD agentid none with
    | some m => pushOut s agentid (.observation m)
    | none => s
  { s with obsMsgBuffer := s.obsMsgBuffer.set agentid none }

/-- `MultiAgentServer._handle_reset`. -/
def handleReset (s : ServerState) (agentid : Nat) (senv : EnvStepOutcome)
    (renv : EnvResetOutcome) : ServerState :=
  if s.resetExpected.all (fun b => b) then
    let s := performReset s renv
    let s := { s with resetExpected := s.resetExpected.set agentid false }
    let s := s.collector.agent_turn.foldl (fun s i =>
      { s with obsMsgBuffer :=
          s.obsMsgBuffer.set i (some { observation := (s.obs.getD []).getD i 0 }) }) s
    if hasBufferMsg s agentid then
      sendBufferMsg s agentid
    else
      { s with resetRequested := s.resetRequested.set agentid true }
  else if s.resetExpected.getD agentid false then
    let s := { s with resetExpected := s.resetExpected.set agentid false }
    if hasBufferMsg s agentid then
      sendBufferMsg s agentid
    else
      { s with resetRequested := s.resetRequested.set agentid true }
  else
    let s := { s with resetRequested := s.resetRequested.set agentid true }
    handleAction s (.resetMsg agentid) senv renv

/-- A message in the shared incoming queue of the server. -/
inductive ServerMsg where
  | action (a : Nat) (agentid : Nat)
  | reset (agentid : Nat)
  | errorReported (e : Err)
  | stopServer
deriving DecidableEq, Repr

/-- The shared state of a `ClientServerInterface`: the incoming queue, the
per-agent outgoing queues, the two lifecycle events and the stop lock. -/
structure CSIState where
  incoming : List ServerMsg
  outgoing : List (List OutMsg)
  started : Bool
  finished : Bool
  stopLockHeld : Bool
deriving DecidableEq, Repr

/-- `ClientServerInterface._stop`: when the server is running, push a
`StopServerMessage` into the incoming queue and, for every outgoing queue,
pop one already-queued message if any (`get_nowait`, the `Empty` exception
being swallowed) and push a `StopServerMessage`. -/
def csiStopInner (c : CSIState) : CSIState :=
  if c.started && !c.finished then
    { c with incoming := c.incoming ++ [.stopServer],
             outgoing := c.outgoing.map (fun q => q.drop 1 ++ [OutMsg.stopServer]) }
  else c

/-- The outcome of one `ClientServerInterface.stop(wait)` call: the
resulting shared state, whether this caller acquired the stop gate, and
whether the call blocks on the finished event at the end
(`wait and self.started_event.is_set()`). -/
structure StopResult where
  state : CSIState
  acquiredGate : Bool
  waitsOnFinished : Bool
deriving DecidableEq, Repr

/-- `ClientServerInterface.stop(wait)`: a non-blocking acquire of the stop
lock succeeds exactly when no other caller holds it; on success the lock
is kept held and `_stop` runs; either way the caller then waits on the
finished event when `wait` is set and the started event is set. -/
def csiStop (c : CSIState) (wait : Bool) : StopResult :=
  if c.stopLockHeld then
    { state := c, acquiredGate := false,
      waitsOnFinished := wait && c.started }
  else
    let c' := csiStopInner { c with stopLockHeld := true }
    { state := c', acquiredGate := true,
      waitsOnFinished := wait && c'.started }

/-- How a blocking `AgentClientEnv.step` call ends, given the message it
reads from its outgoing queue. -/
inductive ClientOutcome where
  /-- The error handler is invoked on the reported error (the default
  handler stops the server and re-raises). -/
  | errorHandled (e : Err)
  /-- A `StopServerException` is raised: the server has stopped. -/
  | serverStopped
  /-- The call returns `obs_msg.totuple()`. -/
  | returned (v : List PyVal)
deriving DecidableEq, Repr

/-- The tail of `AgentClientEnv.step` (from `client.py`), applied to the
message received from the agent's outgoing queue. -/
def clientStepOutcome : OutMsg → ClientOutcome
  | .error e => .errorHandled e
  | .stopServer => .serverStopped
  | .observation m => .returned m.totuple

/-! Helper lemmas about list update and the ordered-dictionary model. -/

theorem getD_set_self {α : Type} (l : List α) (i : Nat) (x d : α)
    (h : i < l.length) : (l.set i x).getD i d = x := by
  simp [List.getD, List.getElem?_set, h]

theorem getD_set_ne {α : Type} (l : List α) {i j : Nat} (x d : α)
    (h : i ≠ j) : (l.set i x).getD j d = l.getD j d := by
  simp [List.getD, List.getElem?_set, h]

theorem keys_filter_ne (acts : List (Nat × Option CollectedVal)) (a i : Nat) :
    i ∈ (acts.filter (fun p => p.1 ≠ a)).map Prod.fst
      ↔ i ∈ acts.map Prod.fst ∧ i ≠ a := by
  simp only [List.mem_map, List.mem_filter, decide_eq_true_eq]
  constructor
  · rintro ⟨p, ⟨hp, hne⟩, rfl⟩
    exact ⟨⟨p, hp, rfl⟩, hne⟩
  · rintro ⟨⟨p, hp, rfl⟩, hne⟩
    exact ⟨p, ⟨hp, hne⟩, rfl⟩

theorem mem_keys_odictFromKeys (ids : List Nat) (i : Nat) :
    i ∈ (odictFromKeys ids).map Prod.fst ↔ i ∈ ids := by
  induction ids with
  | nil => simp [odictFromKeys]
  | cons a l ih =>
    simp only [odictFromKeys, List.map_cons, List.mem_cons]
    rw [keys_filter_ne, ih]
    by_cases h : i = a <;> simp [h]

theorem keys_odictFromKeys_nodup (ids : List Nat) :
    ((odictFromKeys ids).map Prod.fst).Nodup := by
  induction ids with
  | nil => simp [odictFromKeys]
  | cons a l ih =>
    simp only [odictFromKeys, List.map_cons, List.nodup_cons]
    constructor
    · intro hmem
      exact ((keys_filter_ne _ a a).1 hmem).2 rfl
    · exact ((List.filter_sublist _).map Prod.fst).nodup ih

theorem values_odictFromKeys (ids : List Nat) :
    ∀ p ∈ odictFromKeys ids, p.2 = none := by
  induction ids with
  | nil => simp [odictFromKeys]
  | cons a l ih =>
    intro p hp
    rw [odictFromKeys] at hp
    rcases List.mem_cons.1 hp with h | h
    · rw [h]
    · exact ih p (List.mem_of_mem_filter h)

theorem odictFromKeys_of_nodup (ids : List Nat) (h : ids.Nodup) :
    odictFromKeys ids = ids.map (fun a => (a, none)) := by
  induction ids with
  | nil => simp [odictFromKeys]
  | cons a l ih =>
    rw [List.nodup_cons] at h
    rw [odictFromKeys, List.map_cons, ih h.2]
    have hfil : (l.map (fun a => ((a, none) : Nat × Option CollectedVal))).filter
        (fun p => p.1 ≠ a) = l.map (fun a => (a, none)) := by
      apply List.filter_eq_self.2
      intro p hp
      simp only [List.mem_map] at hp
      obtain ⟨b, hb, rfl⟩ := hp
      simp only [decide_eq_true_eq]
      exact fun hba => h.1 (hba ▸ hb)
    rw [hfil]

theorem odictFind_eq_none_iff (acts : List (Nat × Option CollectedVal)) (i : Nat) :
    odictFind acts i = none ↔ i ∉ acts.map Prod.fst := by
  induction acts with
  | nil => simp [odictFind]
  | cons p l ih =>
    rw [odictFind]
    by_cases h : p.1 = i
    · simp [h]
    · rw [if_neg h, ih]
      simp only [List.map_cons, List.mem_cons, not_or]
      exact ⟨fun hm => ⟨fun he => h he.symm, hm⟩, And.right⟩

theorem odictFind_of_values_none (acts : List (Nat × Option CollectedVal))
    (h : ∀ p ∈ acts, p.2 = none) (i : Nat) :
    odictFind acts i = if i ∈ acts.map Prod.fst then some none else none := by
  induction acts with
  | nil => simp [odictFind]
  | cons p l ih =>
    rw [odictFind, List.map_cons]
    by_cases hpi : p.1 = i
    · rw [if_pos hpi, h p (List.mem_cons_self p l),
        if_pos (List.mem_cons.2 (Or.inl hpi.symm))]
    · rw [if_neg hpi, ih (fun q hq => h q (List.mem_cons_of_mem p hq))]
      by_cases hm : i ∈ l.map Prod.fst
      · rw [if_pos hm, if_pos (List.mem_cons.2 (Or.inr hm))]
      · rw [if_neg hm, if_neg (by
          rw [List.mem_cons]
          rintro (h1 | h2)
          · exact hpi h1.symm
          · exact hm h2)]

theorem odictFind_odictFromKeys (ids : List Nat) (i : Nat) :
    odictFind (odictFromKeys ids) i = if i ∈ ids then some none else none := by
  rw [odictFind_of_values_none _ (values_odictFromKeys ids) i]
  by_cases hm : i ∈ ids
  · rw [if_pos ((mem_keys_odictFromKeys ids i).2 hm), if_pos hm]
  · rw [if_neg (fun hc => hm ((mem_keys_odictFromKeys ids i).1 hc)), if_neg hm]

theorem keys_odictSet (acts : List (Nat × Option CollectedVal)) (k : Nat)
    (v : Option CollectedVal) : (odictSet acts k v).map Prod.fst = acts.map Prod.fst := by
  induction acts with
  | nil => rfl
  | cons p l ih =>
    by_cases h : p.1 = k <;> simp only [odictSet, List.map_cons, List.map_map] at ih ⊢ <;>
      simp [h, ih]

theorem length_odictSet (acts : List (Nat × Option CollectedVal)) (k : Nat)
    (v : Option CollectedVal) : (odictSet acts k v).length = acts.length := by
  simp [odictSet]

theorem odictFind_odictSet_self (acts : List (Nat × Option CollectedVal)) (k : Nat)
    (v w : Option CollectedVal) (h : odictFind acts k = some w) :
    odictFind (odictSet acts k v) k = some v := by
  induction acts with
  | nil => simp [odictFind] at h
  | cons p l ih =>
    by_cases hpk : p.1 = k
    · simp [odictFind, odictSet, hpk]
    · rw [odictFind, if_neg hpk] at h
      simp only [odictSet, List.map_cons, if_neg hpk]
      rw [odictFind, if_neg hpk]
      exact ih h

theorem odictFind_odictSet_ne (acts : List (Nat × Option CollectedVal)) {k k' : Nat}
    (v : Option CollectedVal) (h : k ≠ k') :
    odictFind (odictSet acts k v) k' = odictFind acts k' := by
  induction acts with
  | nil => rfl
  | cons p l ih =>
    by_cases hpk : p.1 = k
    · simp only [odictSet, List.map_cons, if_pos hpk]
      rw [odictFind, odictFind, if_neg (hpk ▸ h), if_neg (hpk ▸ h)]
      exact ih
    · simp only [odictSet, List.map_cons, if_neg hpk]
      by_cases hp' : p.1 = k'
      · simp [odictFind, hp']
      · rw [odictFind, odictFind, if_neg hp', if_neg hp']
        exact ih

theorem collect_action_ok (c : ActionCollector) (p a : Nat)
    (h : odictFind c.actions p = some none) :
    c.collect (.actionMsg a p) = .ok { c with
      actions := odictSet c.actions p (some (.act a)),
      collected := c.collected + 1 } := by
  simp [ActionCollector.collect, ActionCollector.collectRun, ColMsg.agentid, h]

theorem collect_reset_ok (c : ActionCollector) (p : Nat)
    (h : odictFind c.actions p = some none) :
    c.collect (.resetMsg p) = .ok { c with
      actions := odictSet c.actions p (some .resetAction),
      interrupted := true,
      collected := c.collected + 1 } := by
  simp [ActionCollector.collect, ActionCollector.collectRun, ColMsg.agentid, h]

/-- C10: whenever `ActionCollector.collect` raises (out-of-turn, duplicate
collection, or unexpected message type), the collector state is unchanged:
no action slot is assigned, the filled-slot count is not incremented, and
the interrupted flag keeps its prior value. -/
theorem C10_collect_raise_leaves_state (c : ActionCollector) (msg : ColMsg) (e : Err)
    (h : (c.collectRun msg).2 = some e) :
    (c.collectRun msg).1.actions = c.actions ∧
    (c.collectRun msg).1.collected = c.collected ∧
    (c.collectRun msg).1.interrupted = c.interrupted := by
  rw [ActionCollector.collectRun.eq_def] at h ⊢
  cases hf : odictFind c.actions msg.agentid with
  | none => simp [hf]
  | some v =>
    cases v with
    | none =>
      cases msg <;> simp only [ColMsg.agentid] at hf <;>
        simp [ColMsg.agentid, hf] at h ⊢
    | some w => simp [hf]

theorem C10_witness :
    ((ActionCollector.mk [(0, some (.act 1))] 1 false).collectRun (.actionMsg 2 0)).2
      = some (Err.alreadyCollected 0) ∧
    ((ActionCollector.mk [(0, some (.act 1))] 1 false).collectRun (.actionMsg 2 0)).1.actions
      = [(0, some (.act 1))] := by
  refine ⟨by decide, ?_⟩
  exact (C10_collect_raise_leaves_state
    (ActionCollector.mk [(0, some (.act 1))] 1 false) (.actionMsg 2 0)
    (Err.alreadyCollected 0) (by decide)).1

/-- C4: `collect` fails with an out-of-turn error when the sender is not
among the armed participants, and with a duplicate-collection error when
the sender's slot is already filled; consequently, submitting an action
twice in the same round before a transition yields a protocol-violation
error delivery on the second submission (while the first submission
produces no delivery). -/
theorem C4_collect_turn_and_duplicate_errors (c : ActionCollector) (s : ServerState)
    (p a a2 : Nat) (senv : EnvStepOutcome) (renv : EnvResetOutcome) :
    (odictFind c.actions p = none →
      c.collect (.actionMsg a p) = .error (.notTurn p)) ∧
    (∀ v, odictFind c.actions p = some (some v) →
      c.collect (.actionMsg a p) = .error (.alreadyCollected p)) ∧
    (s.resetExpected.getD p false = false →
     odictFind s.collector.actions p = some none →
     s.collector.collected + 1 ≠ s.collector.actions.length →
     p < s.outgoing.length →
     (handleAction s (.actionMsg a p) senv renv).outgoing = s.outgoing ∧
     (handleAction (handleAction s (.actionMsg a p) senv renv)
         (.actionMsg a2 p) senv renv).queue p
       = s.queue p ++ [OutMsg.error (.alreadyCollected p)]) := by
  refine ⟨?_, ?_, ?_⟩
  · intro h
    simp [ActionCollector.collect, ActionCollector.collectRun, ColMsg.agentid, h]
  · intro v h
    simp [ActionCollector.collect, ActionCollector.collectRun, ColMsg.agentid, h]
  · intro hexp hfind hnotall hp
    have hall : ({ s.collector with
        actions := odictSet s.collector.actions p (some (.act a)),
        collected := s.collector.collected + 1 } : ActionCollector).all_collected
          = false := by
      simp only [ActionCollector.all_collected, length_odictSet]
      exact beq_eq_false_iff_ne.2 hnotall
    have h1 : handleAction s (.actionMsg a p) senv renv
        = { s with collector := { s.collector with
              actions := odictSet s.collector.actions p (some (.act a)),
              collected := s.collector.collected + 1 } } := by
      rw [handleAction]
      simp only [ColMsg.agentid, hexp, Bool.false_eq_true, if_false]
      rw [collect_action_ok _ _ _ hfind]
      simp [hall]
    have hf2 : odictFind (odictSet s.collector.actions p (some (.act a))) p
        = some (some (.act a)) := odictFind_odictSet_self _ _ _ _ hfind
    constructor
    · rw [h1]
    · rw [h1, handleAction]
      simp only [ColMsg.agentid, hexp, Bool.false_eq_true, if_false,
        ActionCollector.collect, ActionCollector.collectRun, hf2]
      simp only [pushOut, ServerState.queue]
      exact getD_set_self _ _ _ _ hp

theorem C4_witness :
    (ActionCollector.mk [(1, none)] 0 false).collect (.actionMsg 5 0)
      = .error (.notTurn 0) ∧
    (ActionCollector.mk [(0, some (.act 3))] 1 false).collect (.actionMsg 5 0)
      = .error (.alreadyCollected 0) ∧
    (handleAction (handleAction
        { numAgents := 2,
          obsMsgBuffer := [none, none],
          resetExpected := [false, false],
          resetRequested := [false, false],
          obs := some [10, 20], info := none,
          collector := ActionCollector.mk [(0, none), (1, none)] 0 false,
          outgoing := [[], []],
          envResetCount := 1, envStepCount := 0 }
        (.actionMsg 5 0) (EnvStepOutcome.mk (.error 0) []) (EnvResetOutcome.mk [] []))
        (.actionMsg 6 0) (EnvStepOutcome.mk (.error 0) []) (EnvResetOutcome.mk [] [])).queue 0
      = [OutMsg.error (.alreadyCollected 0)] := by
  refine ⟨?_, ?_, ?_⟩
  · exact (C4_collect_turn_and_duplicate_errors
      (ActionCollector.mk [(1, none)] 0 false) (ServerState.init 0) 0 5 6
      (EnvStepOutcome.mk (.error 0) []) (EnvResetOutcome.mk [] [])).1 (by decide)
  · exact (C4_collect_turn_and_duplicate_errors
      (ActionCollector.mk [(0, some (.act 3))] 1 false) (ServerState.init 0) 0 5 6
      (EnvStepOutcome.mk (.error 0) []) (EnvResetOutcome.mk [] [])).2.1
      (CollectedVal.act 3) (by decide)
  · exact ((C4_collect_turn_and_duplicate_errors
      (ActionCollector.mk [] 0 false)
      { numAgents := 2,
        obsMsgBuffer := [none, none],
        resetExpected := [false, false],
        resetRequested := [false, false],
        obs := some [10, 20], info := none,
        collector := ActionCollector.mk [(0, none), (1, none)] 0 false,
        outgoing := [[], []],
        envResetCount := 1, envStepCount := 0 }
      0 5 6 (EnvStepOutcome.mk (.error 0) []) (EnvResetOutcome.mk [] [])).2.2
      (by decide) (by decide) (by decide) (by decide)).2

/-- An operation performed on the collector during its life: a `reset`
(re-arming it for a list of agents) or a `collect` (which, when it raises,
leaves the state unchanged). -/
inductive LedgerOp where
  | rearm (agentids : List Nat)
  | submit (msg : ColMsg)

def applyLedgerOp (c : ActionCollector) (op : LedgerOp) : ActionCollector :=
  match op with
  | .rearm ids => ActionCollector.reset ids
  | .submit msg => (c.collectRun msg).1

/-- A collector obtained by a sequence of reset and collect operations
starting from `ActionCollector(init)`. -/
def runLedger (init : List Nat) (ops : List LedgerOp) : ActionCollector :=
  ops.foldl applyLedgerOp (ActionCollector.reset init)

/-- The number of filled slots of the collector. -/
def filledCount (c : ActionCollector) : Nat :=
  (c.actions.filter (fun p => p.2.isSome)).length

/-- The invariant tying the `_collected` counter to the dictionary. -/
def ledgerInv (c : ActionCollector) : Prop :=
  (c.actions.map Prod.fst).Nodup ∧ c.collected = filledCount c

theorem odictSet_of_not_mem (acts : List (Nat × Option CollectedVal)) (k : Nat)
    (v : Option CollectedVal) (h : k ∉ acts.map Prod.fst) : odictSet acts k v = acts := by
  induction acts with
  | nil => rfl
  | cons p l ih =>
    simp only [List.map_cons, List.mem_cons, not_or] at h
    simp only [odictSet, List.map_cons]
    rw [if_neg (fun hc => h.1 hc.symm)]
    have := ih h.2
    rw [odictSet] at this
    rw [this]

theorem length_filter_odictSet_of_none (acts : List (Nat × Option CollectedVal))
    (k : Nat) (v : CollectedVal) (hnodup : (acts.map Prod.fst).Nodup)
    (h : odictFind acts k = some none) :
    ((odictSet acts k (some v)).filter (fun p => p.2.isSome)).length
      = (acts.filter (fun p => p.2.isSome)).length + 1 := by
  induction acts with
  | nil => simp [odictFind] at h
  | cons p l ih =>
    simp only [List.map_cons, List.nodup_cons] at hnodup
    by_cases hpk : p.1 = k
    · rw [odictFind, if_pos hpk] at h
      have hp2 : p.2 = none := by
        cases hcv : p.2 with
        | none => rfl
        | some w =>
          rw [hcv] at h
          exact absurd h (by simp)
      have hnot : odictSet l k (some v) = l :=
        odictSet_of_not_mem l k (some v) (hpk ▸ hnodup.1)
      simp only [odictSet, List.map_cons, if_pos hpk]
      rw [odictSet] at hnot
      rw [hnot, List.filter_cons, List.filter_cons, hp2]
      simp
    · rw [odictFind, if_neg hpk] at h
      have ih' := ih hnodup.2 h
      simp only [odictSet, List.map_cons, if_neg hpk] at ih' ⊢
      rw [List.filter_cons, List.filter_cons]
      by_cases hps : p.2.isSome = true
      · rw [if_pos hps, if_pos hps, List.length_cons, List.length_cons, ih']
      · rw [if_neg hps, if_neg hps, ih']

theorem ledgerInv_reset (ids : List Nat) : ledgerInv (ActionCollector.reset ids) := by
  refine ⟨keys_odictFromKeys_nodup ids, ?_⟩
  show 0 = filledCount _
  have : (odictFromKeys ids).filter (fun p => p.2.isSome) = [] := by
    rw [List.filter_eq_nil_iff]
    intro p hp
    rw [values_odictFromKeys ids p hp]
    simp
  simp [filledCount, ActionCollector.reset, this]

theorem ledgerInv_collect_ok (c : ActionCollector) (i : Nat) (v : CollectedVal)
    (hinv : ledgerInv c) (hf : odictFind c.actions i = some none)
    (hint : Bool) :
    ledgerInv (ActionCollector.mk (odictSet c.actions i (some v)) (c.collected + 1) hint) := by
  refine ⟨?_, ?_⟩
  · show ((odictSet c.actions i (some v)).map Prod.fst).Nodup
    rw [keys_odictSet]
    exact hinv.1
  · show c.collected + 1 = filledCount _
    rw [filledCount]
    show _ = ((odictSet c.actions i (some v)).filter _).length
    rw [length_filter_odictSet_of_none c.actions i v hinv.1 hf]
    exact congrArg (fun n => n + 1) hinv.2

theorem ledgerInv_collectRun (c : ActionCollector) (msg : ColMsg)
    (hinv : ledgerInv c) : ledgerInv ((c.collectRun msg).1) := by
  cases msg with
  | actionMsg a i =>
    cases hf : odictFind c.actions i with
    | none => simpa [ActionCollector.collectRun, ColMsg.agentid, hf] using hinv
    | some w =>
      cases w with
      | some w' => simpa [ActionCollector.collectRun, ColMsg.agentid, hf] using hinv
      | none =>
        have hres : (c.collectRun (.actionMsg a i)).1 = { c with
            actions := odictSet c.actions i (some (.act a)),
            collected := c.collected + 1 } := by
          simp [ActionCollector.collectRun, ColMsg.agentid, hf]
        rw [hres]
        exact ledgerInv_collect_ok c i _ hinv hf c.interrupted
  | resetMsg i =>
    cases hf : odictFind c.actions i with
    | none => simpa [ActionCollector.collectRun, ColMsg.agentid, hf] using hinv
    | some w =>
      cases w with
      | some w' => simpa [ActionCollector.collectRun, ColMsg.agentid, hf] using hinv
      | none =>
        have hres : (c.collectRun (.resetMsg i)).1 = { c with
            actions := odictSet c.actions i (some .resetAction),
            collected := c.collected + 1, interrupted := true } := by
          simp [ActionCollector.collectRun, ColMsg.agentid, hf]
        rw [hres]
        exact ledgerInv_collect_ok c i _ hinv hf true
  | otherMsg i =>
    cases hf : odictFind c.actions i with
    | none => simpa [ActionCollector.collectRun, ColMsg.agentid, hf] using hinv
    | some w =>
      cases w <;> simpa [ActionCollector.collectRun, ColMsg.agentid, hf] using hinv

theorem ledgerInv_run (ops : List LedgerOp) :
    ∀ c, ledgerInv c → ledgerInv (ops.foldl applyLedgerOp c) := by
  induction ops with
  | nil => exact fun c h => h
  | cons op l ih =>
    intro c h
    rw [List.foldl_cons]
    refine ih _ ?_
    cases op with
    | rearm ids => exact ledgerInv_reset ids
    | submit msg => exact ledgerInv_collectRun c msg h

theorem filter_length_eq_length_iff {α : Type} (p : α → Bool) (l : List α) :
    (l.filter p).length = l.length ↔ ∀ a ∈ l, p a = true := by
  induction l with
  | nil => simp
  | cons x l ih =>
    rw [List.filter_cons]
    by_cases hx : p x = true
    · rw [if_pos hx, List.length_cons, List.length_cons, Nat.add_right_cancel_iff, ih]
      constructor
      · intro h a ha
        rcases List.mem_cons.1 ha with rfl | ha'
        · exact hx
        · exact h a ha'
      · intro h a ha
        exact h a (List.mem_cons_of_mem x ha)
    · rw [if_neg hx]
      constructor
      · intro h
        exact absurd h (Nat.ne_of_lt (Nat.lt_succ_of_le (List.length_filter_le _ _)))
      · intro h
        exact absurd (h x (List.mem_cons_self x l)) hx

/-- C5: along every sequence of reset and collect operations, the ledger's
count of filled slots never exceeds the number of armed slots, and
`all_collected` holds exactly when every armed slot is filled. -/
theorem C5_ledger_count_invariant (init : List Nat) (ops : List LedgerOp) :
    (runLedger init ops).collected ≤ (runLedger init ops).actions.length ∧
    ((runLedger init ops).all_collected = true ↔
      ∀ p ∈ (runLedger init ops).actions, p.2.isSome = true) := by
  have hinv : ledgerInv (runLedger init ops) :=
    ledgerInv_run ops _ (ledgerInv_reset init)
  constructor
  · rw [hinv.2]
    exact List.length_filter_le _ _
  · rw [ActionCollector.all_collected, hinv.2, beq_iff_eq]
    exact filter_length_eq_length_iff _ _

/-- C7: handling an action message from `p` while `reset_expected[p]` is
set delivers exactly one acted-without-reset error to `p`'s queue alone,
passes nothing to the ledger, and modifies no other participant's flags,
slots or channels (and no other server field at all). -/
theorem C7_action_while_reset_expected (s : ServerState) (p a : Nat)
    (senv : EnvStepOutcome) (renv : EnvResetOutcome)
    (hexp : s.resetExpected.getD p false = true)
    (hp : p < s.outgoing.length) :
    (handleAction s (.actionMsg a p) senv renv).queue p
        = s.queue p ++ [OutMsg.error (.noResetAtEpisodeStart p)] ∧
    (∀ j, j ≠ p → (handleAction s (.actionMsg a p) senv renv).queue j = s.queue j) ∧
    (handleAction s (.actionMsg a p) senv renv).collector = s.collector ∧
    (handleAction s (.actionMsg a p) senv renv).resetExpected = s.resetExpected ∧
    (handleAction s (.actionMsg a p) senv renv).resetRequested = s.resetRequested ∧
    (handleAction s (.actionMsg a p) senv renv).obsMsgBuffer = s.obsMsgBuffer ∧
    (handleAction s (.actionMsg a p) senv renv).obs = s.obs ∧
    (handleAction s (.actionMsg a p) senv renv).info = s.info ∧
    (handleAction s (.actionMsg a p) senv renv).envResetCount = s.envResetCount ∧
    (handleAction s (.actionMsg a p) senv renv).envStepCount = s.envStepCount := by
  have h1 : handleAction s (.actionMsg a p) senv renv
      = pushOut s p (.error (.noResetAtEpisodeStart p)) := by
    simp only [handleAction, ColMsg.agentid]
    rw [if_pos hexp]
  rw [h1]
  refine ⟨?_, ?_, rfl, rfl, rfl, rfl, rfl, rfl, rfl, rfl⟩
  · simp only [ServerState.queue, pushOut]
    exact getD_set_self _ _ _ _ hp
  · intro j hj
    simp only [ServerState.queue, pushOut]
    exact getD_set_ne _ _ _ (fun he => hj he.symm)

theorem C7_witness :
    (handleAction
        { numAgents := 2, obsMsgBuffer := [none, none],
          resetExpected := [true, false], resetRequested := [false, false],
          obs := some [1, 2], info := none,
          collector := ActionCollector.mk [(1, none)] 0 false,
          outgoing := [[], []], envResetCount := 1, envStepCount := 0 }
        (.actionMsg 9 0) (EnvStepOutcome.mk (.error 0) []) (EnvResetOutcome.mk [] [])).queue 0
      = [OutMsg.error (.noResetAtEpisodeStart 0)] := by
  exact (C7_action_while_reset_expected
    { numAgents := 2, obsMsgBuffer := [none, none],
      resetExpected := [true, false], resetRequested := [false, false],
      obs := some [1, 2], info := none,
      collector := ActionCollector.mk [(1, none)] 0 false,
      outgoing := [[], []], envResetCount := 1, envStepCount := 0 }
    0 9 (EnvStepOutcome.mk (.error 0) []) (EnvResetOutcome.mk [] [])
    (by decide) (by decide)).1

theorem getD_replicate {α : Type} (n i : Nat) (x d : α) (h : i < n) :
    (List.replicate n x).getD i d = x := by
  induction n generalizing i with
  | zero => exact absurd h (Nat.not_lt_zero i)
  | succ n ih =>
    cases i with
    | zero => rfl
    | succ i => exact ih i (Nat.lt_of_succ_lt_succ h)

/-- C9: right after construction, `reset_expected` is set for every
participant, so the very first action message from any participant `p`
(before any reset from `p`) yields an acted-without-reset error delivery
to `p` rather than a transition (the simulation is neither stepped nor
reset, and the ledger is untouched). -/
theorem C9_initial_action_is_error (n p a : Nat) (senv : EnvStepOutcome)
    (renv : EnvResetOutcome) (hp : p < n) :
    (∀ i, i < n → (ServerState.init n).resetExpected.getD i false = true) ∧
    (handleAction (ServerState.init n) (.actionMsg a p) senv renv).queue p
      = [OutMsg.error (.noResetAtEpisodeStart p)] ∧
    (handleAction (ServerState.init n) (.actionMsg a p) senv renv).collector
      = (ServerState.init n).collector ∧
    (handleAction (ServerState.init n) (.actionMsg a p) senv renv).envStepCount = 0 ∧
    (handleAction (ServerState.init n) (.actionMsg a p) senv renv).envResetCount = 0 := by
  have hexp : ∀ i, i < n → (ServerState.init n).resetExpected.getD i false = true := by
    intro i hi
    exact getD_replicate n i true false hi
  have h1 : handleAction (ServerState.init n) (.actionMsg a p) senv renv
      = pushOut (ServerState.init n) p (.error (.noResetAtEpisodeStart p)) := by
    simp only [handleAction, ColMsg.agentid]
    rw [if_pos (hexp p hp)]
  refine ⟨hexp, ?_, by rw [h1]; rfl, by rw [h1]; rfl, by rw [h1]; rfl⟩
  rw [h1]
  simp only [ServerState.queue, pushOut, ServerState.init]
  rw [getD_set_self _ _ _ _ (by simpa using hp)]
  rw [getD_replicate n p [] [] hp]
  rfl

theorem C9_witness :
    (handleAction (ServerState.init 2) (.actionMsg 3 0)
        (EnvStepOutcome.mk (.error 0) []) (EnvResetOutcome.mk [] [])).queue 0
      = [OutMsg.error (.noResetAtEpisodeStart 0)] ∧
    (handleAction (ServerState.init 2) (.actionMsg 3 0)
        (EnvStepOutcome.mk (.error 0) []) (EnvResetOutcome.mk [] [])).envStepCount = 0 := by
  have h := C9_initial_action_is_error 2 0 3
    (EnvStepOutcome.mk (.error 0) []) (EnvResetOutcome.mk [] []) (by decide)
  exact ⟨h.2.1, h.2.2.2.1⟩

/-- C8 counterexample: the value returned by a successful step is the
flattened Delivery, which is a 4-element tuple -- not a 5-tuple. -/
theorem C8_counterexample :
    clientStepOutcome (.observation (ObservationMessage.mk 5 2 true ⟨false, 7⟩))
      = .returned ((ObservationMessage.mk 5 2 true ⟨false, 7⟩).totuple) ∧
    ((ObservationMessage.mk 5 2 true ⟨false, 7⟩).totuple).length = 4 ∧
    ¬ ((ObservationMessage.mk 5 2 true ⟨false, 7⟩).totuple).length = 5 := by
  exact ⟨rfl, rfl, by decide⟩

/-- C8 amended: for every successful step call (one that receives an
observation delivery), the value returned to the caller is the 4-tuple
`(observation, reward, done, info)` obtained by flattening the
Delivery. -/
theorem C8_step_returns_flattened_delivery (m : ObservationMessage) :
    clientStepOutcome (.observation m)
      = .returned [.obsV m.observation, .rewV m.reward, .boolV m.done, .infoV m.info] ∧
    m.totuple.length = 4 :=
  ⟨rfl, rfl⟩

/-- C3 evaluated at the failing input: all participants have
`reset_expected` set, participant 1 still holds a stale buffered delivery
of the previous episode (the `np.asarray(self.obs_msg_buffer)[:] = None`
statement of `_perform_reset` fills a fresh array copy, not the buffer
list), the fresh episode's turn is `[0]`, and participant 1 requests a
reset: the coordinator delivers the stale previous-episode delivery to 1
(whose `done` flag is even `True`) and does not record
`reset_requested[1]`, although 1 is not due to act. -/
theorem C3_code_eval :
    (handleReset
        { numAgents := 2,
          obsMsgBuffer := [none,
            some (ObservationMessage.mk 7 1 true ⟨false, 0⟩)],
          resetExpected := [true, true], resetRequested := [false, false],
          obs := some [7, 8], info := some [{}, {}],
          collector := ActionCollector.mk [] 0 false,
          outgoing := [[], []], envResetCount := 3, envStepCount := 9 }
        1 (EnvStepOutcome.mk (.error 0) []) (EnvResetOutcome.mk [5, 6] [0])).queue 1
      = [OutMsg.observation (ObservationMessage.mk 7 1 true ⟨false, 0⟩)] ∧
    (handleReset
        { numAgents := 2,
          obsMsgBuffer := [none,
            some (ObservationMessage.mk 7 1 true ⟨false, 0⟩)],
          resetExpected := [true, true], resetRequested := [false, false],
          obs := some [7, 8], info := some [{}, {}],
          collector := ActionCollector.mk [] 0 false,
          outgoing := [[], []], envResetCount := 3, envStepCount := 9 }
        1 (EnvStepOutcome.mk (.error 0) []) (EnvResetOutcome.mk [5, 6] [0])).resetRequested
      = [false, false] := by
  refine ⟨by decide, by decide⟩

/-- C6: when `stop(wait)` is called while the server is running and each
outbound channel holds at most one message, the caller that acquires the
stop gate pushes one shutdown message into the inbound channel and leaves
every outbound channel holding exactly one shutdown message; a caller
that fails to acquire the gate performs no stop actions; with
`wait=True`, every stop caller then blocks on the finished event. -/
theorem C6_stop_behavior (c : CSIState) (wait : Bool)
    (hs : c.started = true) (hf : c.finished = false)
    (hb : ∀ q ∈ c.outgoing, q.length ≤ 1) :
    (c.stopLockHeld = false →
      (csiStop c wait).acquiredGate = true ∧
      (csiStop c wait).state.incoming = c.incoming ++ [ServerMsg.stopServer] ∧
      ∀ q ∈ (csiStop c wait).state.outgoing, q = [OutMsg.stopServer]) ∧
    (c.stopLockHeld = true →
      (csiStop c wait).state = c ∧ (csiStop c wait).acquiredGate = false) ∧
    (csiStop c true).waitsOnFinished = true := by
  have hinner : csiStopInner { c with stopLockHeld := true }
      = CSIState.mk (c.incoming ++ [ServerMsg.stopServer])
          (c.outgoing.map (fun q => q.drop 1 ++ [OutMsg.stopServer]))
          c.started c.finished true := by
    simp [csiStopInner, hs, hf]
  refine ⟨?_, ?_, ?_⟩
  · intro hlock
    rw [csiStop, if_neg (by rw [hlock]; exact Bool.false_ne_true), hinner]
    refine ⟨rfl, rfl, ?_⟩
    intro q hq
    simp only [List.mem_map] at hq
    obtain ⟨q0, hq0, rfl⟩ := hq
    rw [List.drop_eq_nil_of_le (hb q0 hq0)]
    rfl
  · intro hlock
    rw [csiStop, if_pos hlock]
    exact ⟨rfl, rfl⟩
  · rw [csiStop]
    by_cases hlock : c.stopLockHeld = true
    · rw [if_pos hlock]
      show (true && c.started) = true
      rw [hs]
      rfl
    · rw [if_neg hlock, hinner]
      show (true && c.started) = true
      rw [hs]
      rfl

theorem C6_witness :
    (csiStop (CSIState.mk [] [[OutMsg.observation (ObservationMessage.mk 4 0 false ⟨false, 0⟩)], []]
        true false false) true).acquiredGate = true ∧
    (csiStop (CSIState.mk [] [[OutMsg.observation (ObservationMessage.mk 4 0 false ⟨false, 0⟩)], []]
        true false false) true).state.incoming = [] ++ [ServerMsg.stopServer] ∧
    (csiStop (CSIState.mk [] [[OutMsg.observation (ObservationMessage.mk 4 0 false ⟨false, 0⟩)], []]
        true false false) true).state.outgoing.getD 0 [] = [OutMsg.stopServer] ∧
    (csiStop (CSIState.mk [] [[], []] true false true) true).acquiredGate = false := by
  have h := (C6_stop_behavior
    (CSIState.mk [] [[OutMsg.observation (ObservationMessage.mk 4 0 false ⟨false, 0⟩)], []]
      true false false) true rfl rfl (by decide)).1 rfl
  refine ⟨h.1, h.2.1, h.2.2 _ (by decide), ?_⟩
  exact ((C6_stop_behavior (CSIState.mk [] [[], []] true false true) true
    rfl rfl (by decide)).2.1 rfl).2

/-! Lemmas about a fold that pushes one fixed message to each agent in a
list, as the error branch of `_perform_transition` does. -/

theorem pushOut_fields (s : ServerState) (j : Nat) (m : OutMsg) :
    (pushOut s j m).numAgents = s.numAgents ∧
    (pushOut s j m).obsMsgBuffer = s.obsMsgBuffer ∧
    (pushOut s j m).resetExpected = s.resetExpected ∧
    (pushOut s j m).resetRequested = s.resetRequested ∧
    (pushOut s j m).obs = s.obs ∧
    (pushOut s j m).info = s.info ∧
    (pushOut s j m).collector = s.collector ∧
    (pushOut s j m).outgoing.length = s.outgoing.length ∧
    (pushOut s j m).envResetCount = s.envResetCount ∧
    (pushOut s j m).envStepCount = s.envStepCount := by
  refine ⟨rfl, rfl, rfl, rfl, rfl, rfl, rfl, ?_, rfl, rfl⟩
  simp [pushOut]

theorem pushFold_fields (m : OutMsg) (ids : List Nat) (s : ServerState) :
    ((ids.foldl (fun s j => pushOut s j m) s).numAgents = s.numAgents ∧
     (ids.foldl (fun s j => pushOut s j m) s).obsMsgBuffer = s.obsMsgBuffer ∧
     (ids.foldl (fun s j => pushOut s j m) s).resetExpected = s.resetExpected ∧
     (ids.foldl (fun s j => pushOut s j m) s).resetRequested = s.resetRequested ∧
     (ids.foldl (fun s j => pushOut s j m) s).obs = s.obs ∧
     (ids.foldl (fun s j => pushOut s j m) s).info = s.info ∧
     (ids.foldl (fun s j => pushOut s j m) s).collector = s.collector ∧
     (ids.foldl (fun s j => pushOut s j m) s).outgoing.length = s.outgoing.length ∧
     (ids.foldl (fun s j => pushOut s j m) s).envResetCount = s.envResetCount ∧
     (ids.foldl (fun s j => pushOut s j m) s).envStepCount = s.envStepCount) := by
  induction ids generalizing s with
  | nil => exact ⟨rfl, rfl, rfl, rfl, rfl, rfl, rfl, rfl, rfl, rfl⟩
  | cons j l ih =>
    rw [List.foldl_cons]
    have hb := pushOut_fields s j m
    have hi := ih (pushOut s j m)
    exact ⟨hi.1.trans hb.1, (hi.2.1).trans hb.2.1, (hi.2.2.1).trans hb.2.2.1,
      (hi.2.2.2.1).trans hb.2.2.2.1, (hi.2.2.2.2.1).trans hb.2.2.2.2.1,
      (hi.2.2.2.2.2.1).trans hb.2.2.2.2.2.1,
      (hi.2.2.2.2.2.2.1).trans hb.2.2.2.2.2.2.1,
      (hi.2.2.2.2.2.2.2.1).trans hb.2.2.2.2.2.2.2.1,
      (hi.2.2.2.2.2.2.2.2.1).trans hb.2.2.2.2.2.2.2.2.1,
      (hi.2.2.2.2.2.2.2.2.2).trans hb.2.2.2.2.2.2.2.2.2⟩

theorem pushOut_queue_ne (s : ServerState) {j i : Nat} (m : OutMsg) (h : j ≠ i) :
    (pushOut s j m).queue i = s.queue i := by
  simp only [ServerState.queue, pushOut]
  exact getD_set_ne _ _ _ h

theorem pushFold_queue_not_mem (m : OutMsg) (ids : List Nat) (s : ServerState)
    (i : Nat) (h : i ∉ ids) :
    (ids.foldl (fun s j => pushOut s j m) s).queue i = s.queue i := by
  induction ids generalizing s with
  | nil => rfl
  | cons j l ih =>
    rw [List.foldl_cons]
    rw [ih (pushOut s j m) (fun hc => h (List.mem_cons_of_mem j hc))]
    exact pushOut_queue_ne s m (fun hc => h (hc ▸ List.mem_cons_self j l))

theorem pushFold_queue_mem (m : OutMsg) (ids : List Nat) (s : ServerState)
    (i : Nat) (hnodup : ids.Nodup) (hmem : i ∈ ids) (hlen : i < s.outgoing.length) :
    (ids.foldl (fun s j => pushOut s j m) s).queue i = s.queue i ++ [m] := by
  induction ids generalizing s with
  | nil => exact absurd hmem (List.not_mem_nil i)
  | cons j l ih =>
    rw [List.foldl_cons]
    rw [List.nodup_cons] at hnodup
    rcases List.mem_cons.1 hmem with rfl | hmem'
    · rw [pushFold_queue_not_mem m l (pushOut s i m) i hnodup.1]
      simp only [ServerState.queue, pushOut]
      exact getD_set_self _ _ _ _ hlen
    · rw [ih (pushOut s j m) hnodup.2 hmem'
        (by rw [(pushOut_fields s j m).2.2.2.2.2.2.2.1]; exact hlen)]
      rw [pushOut_queue_ne s m (fun hc => hnodup.1 (by rw [hc]; exact hmem'))]

theorem agent_turn_reset_of_nodup (ids : List Nat) (h : ids.Nodup) :
    (ActionCollector.reset ids).agent_turn = ids := by
  rw [ActionCollector.agent_turn, ActionCollector.reset, odictFromKeys_of_nodup ids h,
    List.map_map]
  show List.map (fun a => a) ids = ids
  exact List.map_id' ids

/-- C2: in a normal (non-interrupted) fully collected round, when the
simulation's `step` raises, every participant in the armed turn set
receives exactly one error delivery, the ledger is re-armed for exactly
that same participant set, and nothing else changes: no observation
delivery, no reset flag, no buffered delivery; the simulation was stepped
once and is not rolled back (no reset call). -/
theorem C2_step_exception_round (s : ServerState) (senv : EnvStepOutcome)
    (renv : EnvResetOutcome) (e : Nat)
    (hnotint : s.collector.interrupted = false)
    (hall : s.collector.all_collected = true)
    (hres : senv.result = .error e)
    (hnodup : s.collector.agent_turn.Nodup)
    (hturnlen : ∀ j ∈ s.collector.agent_turn, j < s.outgoing.length) :
    (∀ j ∈ s.collector.agent_turn,
      (performTransition s senv renv).queue j
        = s.queue j ++ [OutMsg.error (.envStepFailed e)]) ∧
    (∀ j, j ∉ s.collector.agent_turn →
      (performTransition s senv renv).queue j = s.queue j) ∧
    (performTransition s senv renv).collector
      = ActionCollector.reset s.collector.agent_turn ∧
    (performTransition s senv renv).collector.agent_turn = s.collector.agent_turn ∧
    (performTransition s senv renv).resetExpected = s.resetExpected ∧
    (performTransition s senv renv).resetRequested = s.resetRequested ∧
    (performTransition s senv renv).obsMsgBuffer = s.obsMsgBuffer ∧
    (performTransition s senv renv).obs = s.obs ∧
    (performTransition s senv renv).info = s.info ∧
    (performTransition s senv renv).envResetCount = s.envResetCount ∧
    (performTransition s senv renv).envStepCount = s.envStepCount + 1 := by
  have hbranch : performTransition s senv renv
      = { (s.collector.agent_turn.foldl
            (fun s j => pushOut s j (.error (.envStepFailed e)))
            { s with envStepCount := s.envStepCount + 1 }) with
          collector := ActionCollector.reset s.collector.agent_turn } := by
    rw [performTransition]
    rw [if_neg (by rw [hnotint]; exact Bool.false_ne_true)]
    rw [hres]
  have hfold := pushFold_fields (OutMsg.error (.envStepFailed e))
    s.collector.agent_turn { s with envStepCount := s.envStepCount + 1 }
  refine ⟨?_, ?_, ?_, ?_, ?_, ?_, ?_, ?_, ?_, ?_, ?_⟩
  · intro j hj
    rw [hbranch]
    show (s.collector.agent_turn.foldl
      (fun s j => pushOut s j (.error (.envStepFailed e)))
      { s with envStepCount := s.envStepCount + 1 }).queue j = _
    exact pushFold_queue_mem _ _ _ j hnodup hj (hturnlen j hj)
  · intro j hj
    rw [hbranch]
    show (s.collector.agent_turn.foldl
      (fun s j => pushOut s j (.error (.envStepFailed e)))
      { s with envStepCount := s.envStepCount + 1 }).queue j = _
    exact pushFold_queue_not_mem _ _ _ j hj
  · rw [hbranch]
  · rw [hbranch]
    show (ActionCollector.reset s.collector.agent_turn).agent_turn = _
    exact agent_turn_reset_of_nodup _ hnodup
  · rw [hbranch]
    exact hfold.2.2.1
  · rw [hbranch]
    exact hfold.2.2.2.1
  · rw [hbranch]
    exact hfold.2.1
  · rw [hbranch]
    exact hfold.2.2.2.2.1
  · rw [hbranch]
    exact hfold.2.2.2.2.2.1
  · rw [hbranch]
    exact hfold.2.2.2.2.2.2.2.2.1
  · rw [hbranch]
    exact hfold.2.2.2.2.2.2.2.2.2

theorem C2_witness :
    (performTransition
        { numAgents := 2, obsMsgBuffer := [none, none],
          resetExpected := [false, false], resetRequested := [false, false],
          obs := some [3, 4], info := none,
          collector := ActionCollector.mk
            [(0, some (CollectedVal.act 1)), (1, some (CollectedVal.act 2))] 2 false,
          outgoing := [[], []], envResetCount := 0, envStepCount := 5 }
        (EnvStepOutcome.mk (.error 7) []) (EnvResetOutcome.mk [] [])).queue 0
      = [OutMsg.error (.envStepFailed 7)] ∧
    (performTransition
        { numAgents := 2, obsMsgBuffer := [none, none],
          resetExpected := [false, false], resetRequested := [false, false],
          obs := some [3, 4], info := none,
          collector := ActionCollector.mk
            [(0, some (CollectedVal.act 1)), (1, some (CollectedVal.act 2))] 2 false,
          outgoing := [[], []], envResetCount := 0, envStepCount := 5 }
        (EnvStepOutcome.mk (.error 7) []) (EnvResetOutcome.mk [] [])).envStepCount = 6 ∧
    (performTransition
        { numAgents := 2, obsMsgBuffer := [none, none],
          resetExpected := [false, false], resetRequested := [false, false],
          obs := some [3, 4], info := none,
          collector := ActionCollector.mk
            [(0, some (CollectedVal.act 1)), (1, some (CollectedVal.act 2))] 2 false,
          outgoing := [[], []], envResetCount := 0, envStepCount := 5 }
        (EnvStepOutcome.mk (.error 7) []) (EnvResetOutcome.mk [] [])).envResetCount = 0 := by
  have h := C2_step_exception_round
    { numAgents := 2, obsMsgBuffer := [none, none],
      resetExpected := [false, false], resetRequested := [false, false],
      obs := some [3, 4], info := none,
      collector := ActionCollector.mk
        [(0, some (CollectedVal.act 1)), (1, some (CollectedVal.act 2))] 2 false,
      outgoing := [[], []], envResetCount := 0, envStepCount := 5 }
    (EnvStepOutcome.mk (.error 7) []) (EnvResetOutcome.mk [] []) 7
    rfl rfl rfl (by decide) (by decide)
  exact ⟨(h.1 0 (by decide)).trans rfl, h.2.2.2.2.2.2.2.2.2.2,
    (h.2.2.2.2.2.2.2.2.2.1).trans rfl⟩

/-! Lemmas about the two loops of the interrupted branch of
`_perform_transition`. -/

/-- Classification of a delivery as an interruption delivery
(`terminated=True` together with `info.interrupted=True`). -/
def isInterruptedDelivery : OutMsg → Bool
  | .observation m => m.done && m.info.interrupted
  | _ => false

/-- The first loop of the interrupted branch. -/
def interruptPhase1 (s : ServerState) : ServerState :=
  (List.range s.numAgents).foldl (interruptedLoopBody s.collector.actions) s

/-- The reset and expectation-clearing steps of the interrupted branch. -/
def interruptPhase2 (s : ServerState) (renv : EnvResetOutcome) : ServerState :=
  let s2 := performReset (interruptPhase1 s) renv
  { s2 with resetExpected := clearWhere s2.resetExpected s2.resetRequested }

/-- The whole interrupted branch. -/
def interruptPhase3 (s : ServerState) (renv : EnvResetOutcome) : ServerState :=
  (interruptPhase2 s renv).collector.agent_turn.foldl newTurnLoopBody
    (interruptPhase2 s renv)

theorem performTransition_interrupted (s : ServerState) (senv : EnvStepOutcome)
    (renv : EnvResetOutcome) (hint : s.collector.interrupted = true) :
    performTransition s senv renv = interruptPhase3 s renv := by
  simp only [performTransition, interruptPhase3, interruptPhase2, interruptPhase1]
  rw [if_pos hint]

theorem intBody_fields (d : List (Nat × Option CollectedVal)) (s : ServerState)
    (j : Nat) :
    (interruptedLoopBody d s j).resetExpected = s.resetExpected ∧
    (interruptedLoopBody d s j).resetRequested = s.resetRequested ∧
    (interruptedLoopBody d s j).obs = s.obs ∧
    (interruptedLoopBody d s j).info = s.info ∧
    (interruptedLoopBody d s j).outgoing.length = s.outgoing.length ∧
    (interruptedLoopBody d s j).numAgents = s.numAgents ∧
    (interruptedLoopBody d s j).envResetCount = s.envResetCount ∧
    (interruptedLoopBody d s j).collector = s.collector ∧
    (interruptedLoopBody d s j).obsMsgBuffer = s.obsMsgBuffer := by
  rw [interruptedLoopBody]
  split
  · exact ⟨rfl, rfl, rfl, rfl, rfl, rfl, rfl, rfl, rfl⟩
  · have h := pushOut_fields s j (.observation (interruptDeliveryMsg s j))
    exact ⟨h.2.2.1, h.2.2.2.1, h.2.2.2.2.1, h.2.2.2.2.2.1, h.2.2.2.2.2.2.2.1,
      h.1, h.2.2.2.2.2.2.2.2.1, h.2.2.2.2.2.2.1, h.2.1⟩

theorem intFold_fields (d : List (Nat × Option CollectedVal)) (ids : List Nat)
    (s : ServerState) :
    ((ids.foldl (interruptedLoopBody d) s).resetExpected = s.resetExpected ∧
     (ids.foldl (interruptedLoopBody d) s).resetRequested = s.resetRequested ∧
     (ids.foldl (interruptedLoopBody d) s).obs = s.obs ∧
     (ids.foldl (interruptedLoopBody d) s).info = s.info ∧
     (ids.foldl (interruptedLoopBody d) s).outgoing.length = s.outgoing.length ∧
     (ids.foldl (interruptedLoopBody d) s).numAgents = s.numAgents ∧
     (ids.foldl (interruptedLoopBody d) s).envResetCount = s.envResetCount ∧
     (ids.foldl (interruptedLoopBody d) s).collector = s.collector ∧
     (ids.foldl (interruptedLoopBody d) s).obsMsgBuffer = s.obsMsgBuffer) := by
  induction ids generalizing s with
  | nil => exact ⟨rfl, rfl, rfl, rfl, rfl, rfl, rfl, rfl, rfl⟩
  | cons j l ih =>
    rw [List.foldl_cons]
    have hb := intBody_fields d s j
    have hi := ih (interruptedLoopBody d s j)
    exact ⟨hi.1.trans hb.1, hi.2.1.trans hb.2.1, hi.2.2.1.trans hb.2.2.1,
      hi.2.2.2.1.trans hb.2.2.2.1, hi.2.2.2.2.1.trans hb.2.2.2.2.1,
      hi.2.2.2.2.2.1.trans hb.2.2.2.2.2.1, hi.2.2.2.2.2.2.1.trans hb.2.2.2.2.2.2.1,
      hi.2.2.2.2.2.2.2.1.trans hb.2.2.2.2.2.2.2.1,
      hi.2.2.2.2.2.2.2.2.trans hb.2.2.2.2.2.2.2.2⟩

theorem intBody_queue_ne (d : List (Nat × Option CollectedVal)) (s : ServerState)
    {j i : Nat} (h : j ≠ i) :
    (interruptedLoopBody d s j).queue i = s.queue i := by
  rw [interruptedLoopBody]
  split
  · rfl
  · exact pushOut_queue_ne s _ h

theorem intFold_queue_not_mem (d : List (Nat × Option CollectedVal)) (ids : List Nat)
    (s : ServerState) (i : Nat) (h : i ∉ ids) :
    (ids.foldl (interruptedLoopBody d) s).queue i = s.queue i := by
  induction ids generalizing s with
  | nil => rfl
  | cons j l ih =>
    rw [List.foldl_cons]
    rw [ih (interruptedLoopBody d s j) (fun hc => h (List.mem_cons_of_mem j hc))]
    exact intBody_queue_ne d s (fun hc => h (hc ▸ List.mem_cons_self j l))

theorem interruptInfo_interrupted (info? : Option (List Info)) (i : Nat) :
    (interruptInfo info? i).interrupted = true := by
  cases info? <;> rfl

theorem interruptDeliveryMsg_congr (s s' : ServerState) (i : Nat)
    (hobs : s'.obs = s.obs) (hinfo : s'.info = s.info) :
    interruptDeliveryMsg s' i = interruptDeliveryMsg s i := by
  rw [interruptDeliveryMsg, interruptDeliveryMsg, hobs, hinfo]

theorem intFold_queue_mem (d : List (Nat × Option CollectedVal)) (ids : List Nat)
    (s : ServerState) (i : Nat) (hnodup : ids.Nodup) (hmem : i ∈ ids)
    (hlen : i < s.outgoing.length) :
    (ids.foldl (interruptedLoopBody d) s).queue i
      = if storedIsResetMessage (actionDictGet d i)
            || s.resetExpected.getD i false || s.resetRequested.getD i false then
          s.queue i
        else
          s.queue i ++ [OutMsg.observation (interruptDeliveryMsg s i)] := by
  induction ids generalizing s with
  | nil => exact absurd hmem (List.not_mem_nil i)
  | cons j l ih =>
    rw [List.foldl_cons]
    rw [List.nodup_cons] at hnodup
    rcases List.mem_cons.1 hmem with rfl | hmem'
    · rw [intFold_queue_not_mem d l _ i hnodup.1]
      rw [interruptedLoopBody]
      by_cases hc : (storedIsResetMessage (actionDictGet d i)
          || s.resetExpected.getD i false || s.resetRequested.getD i false) = true
      · rw [if_pos hc, if_pos hc]
      · rw [if_neg hc, if_neg hc]
        simp only [ServerState.queue, pushOut]
        exact getD_set_self _ _ _ _ hlen
    · have hne : j ≠ i := fun hc => hnodup.1 (by rw [hc]; exact hmem')
      have hb := intBody_fields d s j
      rw [ih (interruptedLoopBody d s j) hnodup.2 hmem'
        (by rw [hb.2.2.2.2.1]; exact hlen)]
      rw [intBody_queue_ne d s hne]
      rw [hb.1, hb.2.1]
      rw [interruptDeliveryMsg_congr s (interruptedLoopBody d s j) i
        hb.2.2.1 hb.2.2.2.1]

theorem ntBody_fields (s : ServerState) (j : Nat) :
    (newTurnLoopBody s j).resetExpected = s.resetExpected ∧
    (newTurnLoopBody s j).obs = s.obs ∧
    (newTurnLoopBody s j).info = s.info ∧
    (newTurnLoopBody s j).numAgents = s.numAgents ∧
    (newTurnLoopBody s j).envResetCount = s.envResetCount ∧
    (newTurnLoopBody s j).envStepCount = s.envStepCount ∧
    (newTurnLoopBody s j).collector = s.collector ∧
    (newTurnLoopBody s j).outgoing.length = s.outgoing.length := by
  simp only [newTurnLoopBody]
  split
  · refine ⟨rfl, rfl, rfl, rfl, rfl, rfl, rfl, ?_⟩
    simp [pushOut]
  · exact ⟨rfl, rfl, rfl, rfl, rfl, rfl, rfl, rfl⟩

theorem ntFold_fields (ids : List Nat) (s : ServerState) :
    ((ids.foldl newTurnLoopBody s).resetExpected = s.resetExpected ∧
     (ids.foldl newTurnLoopBody s).obs = s.obs ∧
     (ids.foldl newTurnLoopBody s).info = s.info ∧
     (ids.foldl newTurnLoopBody s).numAgents = s.numAgents ∧
     (ids.foldl newTurnLoopBody s).envResetCount = s.envResetCount ∧
     (ids.foldl newTurnLoopBody s).envStepCount = s.envStepCount ∧
     (ids.foldl newTurnLoopBody s).collector = s.collector ∧
     (ids.foldl newTurnLoopBody s).outgoing.length = s.outgoing.length) := by
  induction ids generalizing s with
  | nil => exact ⟨rfl, rfl, rfl, rfl, rfl, rfl, rfl, rfl⟩
  | cons j l ih =>
    rw [List.foldl_cons]
    have hb := ntBody_fields s j
    have hi := ih (newTurnLoopBody s j)
    exact ⟨hi.1.trans hb.1, hi.2.1.trans hb.2.1, hi.2.2.1.trans hb.2.2.1,
      hi.2.2.2.1.trans hb.2.2.2.1, hi.2.2.2.2.1.trans hb.2.2.2.2.1,
      hi.2.2.2.2.2.1.trans hb.2.2.2.2.2.1, hi.2.2.2.2.2.2.1.trans hb.2.2.2.2.2.2.1,
      hi.2.2.2.2.2.2.2.trans hb.2.2.2.2.2.2.2⟩

theorem ntBody_queue_requested_ne (s : ServerState) {j i : Nat} (h : j ≠ i) :
    (newTurnLoopBody s j).queue i = s.queue i ∧
    (newTurnLoopBody s j).resetRequested.getD i false
      = s.resetRequested.getD i false := by
  simp only [newTurnLoopBody]
  split
  · constructor
    · show (pushOut s j _).queue i = s.queue i
      exact pushOut_queue_ne s _ h
    · show ((pushOut s j _).resetRequested.set j false).getD i false = _
      rw [getD_set_ne _ _ _ h]
      rfl
  · exact ⟨rfl, rfl⟩

theorem ntBody_self_not_requested (s : ServerState) (i : Nat)
    (h : s.resetRequested.getD i false = false) :
    (newTurnLoopBody s i).queue i = s.queue i ∧
    (newTurnLoopBody s i).resetRequested.getD i false = false := by
  simp only [newTurnLoopBody]
  rw [if_neg (by rw [h]; exact Bool.false_ne_true)]
  exact ⟨rfl, h⟩

theorem ntFold_not_requested (ids : List Nat) (s : ServerState) (i : Nat)
    (h : s.resetRequested.getD i false = false) :
    (ids.foldl newTurnLoopBody s).queue i = s.queue i ∧
    (ids.foldl newTurnLoopBody s).resetRequested.getD i false = false := by
  induction ids generalizing s with
  | nil => exact ⟨rfl, h⟩
  | cons j l ih =>
    rw [List.foldl_cons]
    by_cases hj : j = i
    · subst hj
      have hb := ntBody_self_not_requested s j h
      have hi := ih (newTurnLoopBody s j) hb.2
      exact ⟨hi.1.trans hb.1, hi.2⟩
    · have hb := ntBody_queue_requested_ne s hj
      have hi := ih (newTurnLoopBody s j) (hb.2.trans h)
      exact ⟨hi.1.trans hb.1, hi.2⟩

theorem ntBody_queue_filter (s : ServerState) (j i : Nat) :
    ((newTurnLoopBody s j).queue i).filter isInterruptedDelivery
      = (s.queue i).filter isInterruptedDelivery := by
  by_cases hj : j = i
  · subst hj
    simp only [newTurnLoopBody]
    split
    · show (((pushOut s j (.observation _)).queue j).filter _) = _
      by_cases hlt : j < s.outgoing.length
      · have : (pushOut s j (.observation
            { observation := (s.obs.getD []).getD j 0 })).queue j
            = s.queue j ++ [.observation { observation := (s.obs.getD []).getD j 0 }] := by
          simp only [ServerState.queue, pushOut]
          exact getD_set_self _ _ _ _ hlt
        rw [this, List.filter_append]
        simp [isInterruptedDelivery]
      · have : (pushOut s j (.observation
            { observation := (s.obs.getD []).getD j 0 })).queue j = s.queue j := by
          simp only [ServerState.queue, pushOut]
          rw [List.set_eq_of_length_le (Nat.le_of_not_lt hlt)]
        rw [this]
    · rfl
  · rw [(ntBody_queue_requested_ne s hj).1]

theorem ntFold_queue_filter (ids : List Nat) (s : ServerState) (i : Nat) :
    (((ids.foldl newTurnLoopBody s).queue i).filter isInterruptedDelivery)
      = ((s.queue i).filter isInterruptedDelivery) := by
  induction ids generalizing s with
  | nil => rfl
  | cons j l ih =>
    rw [List.foldl_cons]
    rw [ih (newTurnLoopBody s j)]
    exact ntBody_queue_filter s j i

/-- C1: in an interrupted round, every participant with neither
`reset_expected` nor `reset_requested` set (which, by the stated
requester hypothesis, excludes every requester) receives exactly one
delivery repeating its last-known observation with reward 0,
`terminated=True` and `info.interrupted=True`; a participant that is a
requester, or has `reset_expected`, or has `reset_requested`, receives no
interruption delivery; and the simulation is fully reset exactly once. -/
theorem C1_interrupted_round (s : ServerState) (senv : EnvStepOutcome)
    (renv : EnvResetOutcome) (obsl : List Obs) (i : Nat)
    (hint : s.collector.interrupted = true)
    (hall : s.collector.all_collected = true)
    (hobs : s.obs = some obsl)
    (hlen : s.outgoing.length = s.numAgents)
    (hi : i < s.numAgents)
    (hreqinv : ∀ j, actionDictGet s.collector.actions j = some .resetAction →
      s.resetRequested.getD j false = true) :
    (s.resetExpected.getD i false = false → s.resetRequested.getD i false = false →
      (performTransition s senv renv).queue i
        = s.queue i ++ [OutMsg.observation
            (ObservationMessage.mk (obsl.getD i 0) 0 true (interruptInfo s.info i))] ∧
      (interruptInfo s.info i).interrupted = true ∧
      isInterruptedDelivery (OutMsg.observation
        (ObservationMessage.mk (obsl.getD i 0) 0 true (interruptInfo s.info i))) = true) ∧
    ((actionDictGet s.collector.actions i = some CollectedVal.resetAction ∨
      s.resetExpected.getD i false = true ∨ s.resetRequested.getD i false = true) →
      ((performTransition s senv renv).queue i).filter isInterruptedDelivery
        = (s.queue i).filter isInterruptedDelivery) ∧
    (performTransition s senv renv).envResetCount = s.envResetCount + 1 := by
  rw [performTransition_interrupted s senv renv hint]
  have hp1fields := intFold_fields s.collector.actions (List.range s.numAgents) s
  have hp2req : (interruptPhase2 s renv).resetRequested = s.resetRequested := by
    show (performReset (interruptPhase1 s) renv).resetRequested = _
    show (interruptPhase1 s).resetRequested = _
    exact hp1fields.2.1
  have hp2queue : ∀ k, (interruptPhase2 s renv).queue k = (interruptPhase1 s).queue k := by
    intro k
    rfl
  refine ⟨?_, ?_, ?_⟩
  · intro hexpF hreqF
    have hq1 : (interruptPhase1 s).queue i
        = s.queue i ++ [OutMsg.observation (interruptDeliveryMsg s i)] := by
      rw [interruptPhase1, intFold_queue_mem s.collector.actions (List.range s.numAgents)
        s i (List.nodup_range s.numAgents) (List.mem_range.2 hi) (by rw [hlen]; exact hi)]
      rw [if_neg (by rw [hexpF, hreqF]; exact Bool.false_ne_true)]
    have hq3 := (ntFold_not_requested (interruptPhase2 s renv).collector.agent_turn
      (interruptPhase2 s renv) i (by rw [hp2req]; exact hreqF)).1
    rw [interruptPhase3] at *
    rw [hq3, hp2queue i, hq1]
    have hmsg : interruptDeliveryMsg s i
        = ObservationMessage.mk (obsl.getD i 0) 0 true (interruptInfo s.info i) := by
      rw [interruptDeliveryMsg, hobs]
      rfl
    rw [hmsg]
    refine ⟨rfl, ?_, ?_⟩
    · exact interruptInfo_interrupted s.info i
    · simp only [isInterruptedDelivery]
      rw [interruptInfo_interrupted s.info i]
      rfl
  · intro hinel
    have hcond : (storedIsResetMessage (actionDictGet s.collector.actions i)
        || s.resetExpected.getD i false || s.resetRequested.getD i false) = true := by
      rcases hinel with hreq | hexp | hreqT
      · rw [hreqinv i hreq]
        simp
      · rw [hexp]
        simp
      · rw [hreqT]
        simp
    have hq1 : (interruptPhase1 s).queue i = s.queue i := by
      rw [interruptPhase1, intFold_queue_mem s.collector.actions (List.range s.numAgents)
        s i (List.nodup_range s.numAgents) (List.mem_range.2 hi) (by rw [hlen]; exact hi)]
      rw [if_pos hcond]
    rw [interruptPhase3]
    rw [ntFold_queue_filter, hp2queue i, hq1]
  · rw [interruptPhase3]
    have h3 := (ntFold_fields (interruptPhase2 s renv).collector.agent_turn
      (interruptPhase2 s renv)).2.2.2.2.1
    rw [h3]
    show (performReset (interruptPhase1 s) renv).envResetCount = _
    show (interruptPhase1 s).envResetCount + 1 = _
    rw [interruptPhase1, hp1fields.2.2.2.2.2.2.1]

theorem C1_witness :
    (performTransition
        { numAgents := 2, obsMsgBuffer := [none, none],
          resetExpected := [false, false], resetRequested := [false, true],
          obs := some [11, 21], info := some [{}, {}],
          collector := ActionCollector.mk [(1, some CollectedVal.resetAction)] 1 true,
          outgoing := [[], []], envResetCount := 0, envStepCount := 3 }
        (EnvStepOutcome.mk (.error 0) []) (EnvResetOutcome.mk [30, 40] [0])).queue 0
      = [OutMsg.observation (ObservationMessage.mk 11 0 true (Info.mk true 0))] ∧
    ((performTransition
        { numAgents := 2, obsMsgBuffer := [none, none],
          resetExpected := [false, false], resetRequested := [false, true],
          obs := some [11, 21], info := some [{}, {}],
          collector := ActionCollector.mk [(1, some CollectedVal.resetAction)] 1 true,
          outgoing := [[], []], envResetCount := 0, envStepCount := 3 }
        (EnvStepOutcome.mk (.error 0) []) (EnvResetOutcome.mk [30, 40] [0])).queue 1).filter
          isInterruptedDelivery = [] ∧
    (performTransition
        { numAgents := 2, obsMsgBuffer := [none, none],
          resetExpected := [false, false], resetRequested := [false, true],
          obs := some [11, 21], info := some [{}, {}],
          collector := ActionCollector.mk [(1, some CollectedVal.resetAction)] 1 true,
          outgoing := [[], []], envResetCount := 0, envStepCount := 3 }
        (EnvStepOutcome.mk (.error 0) []) (EnvResetOutcome.mk [30, 40] [0])).envResetCount
      = 1 := by
  have hreqinv : ∀ j, actionDictGet
      [((1 : Nat), some CollectedVal.resetAction)] j = some CollectedVal.resetAction →
      ([false, true] : List Bool).getD j false = true := by
    intro j hj
    by_cases h1 : j = 1
    · subst h1
      decide
    · exfalso
      have hnone : actionDictGet [((1 : Nat), some CollectedVal.resetAction)] j = none := by
        rw [actionDictGet, odictFind, if_neg (fun hc => h1 hc.symm), odictFind]
      rw [hnone] at hj
      exact Option.noConfusion hj
  have h0 := C1_interrupted_round
    { numAgents := 2, obsMsgBuffer := [none, none],
      resetExpected := [false, false], resetRequested := [false, true],
      obs := some [11, 21], info := some [{}, {}],
      collector := ActionCollector.mk [(1, some CollectedVal.resetAction)] 1 true,
      outgoing := [[], []], envResetCount := 0, envStepCount := 3 }
    (EnvStepOutcome.mk (.error 0) []) (EnvResetOutcome.mk [30, 40] [0])
    [11, 21] 0 rfl rfl rfl rfl (by decide) hreqinv
  have h1 := C1_interrupted_round
    { numAgents := 2, obsMsgBuffer := [none, none],
      resetExpected := [false, false], resetRequested := [false, true],
      obs := some [11, 21], info := some [{}, {}],
      collector := ActionCollector.mk [(1, some CollectedVal.resetAction)] 1 true,
      outgoing := [[], []], envResetCount := 0, envStepCount := 3 }
    (EnvStepOutcome.mk (.error 0) []) (EnvResetOutcome.mk [30, 40] [0])
    [11, 21] 1 rfl rfl rfl rfl (by decide) hreqinv
  refine ⟨((h0.1 rfl rfl).1).trans (by decide), ?_, h0.2.2⟩
  exact (h1.2.1 (Or.inl (by decide))).trans (by decide)

end GymPlannable
